import Mathlib

/-!
Verification of the Tart command-line archiver (src/main.rs).

The development shallowly embeds the program: file contents are lists of
byte values, the filesystem is an association list from path to contents
(lookup returns the first binding, so prepending models create/overwrite),
and each Rust function becomes a Lean function over that state.  The gzip
and tar libraries are external collaborators; they are modelled from the
spec's codec contract (named byte streams written sequentially and read
back preserving path and content, with streaming extraction that keeps
entries already extracted when a later part of the stream is corrupt).
-/

namespace Tart

/-- File contents: a list of byte values. -/
abbrev Bytes := List Nat

/-- The filesystem: an association list from path to file contents.
`List.lookup` returns the first binding, so prepending a pair models
creating or overwriting a file. -/
abbrev FS := List (String × Bytes)

/-- Read a file's contents; `none` means the path does not exist. -/
def fsLookup (fs : FS) (p : String) : Option Bytes := fs.lookup p

/-- Create or overwrite the file at `p` with contents `b`. -/
def fsWrite (fs : FS) (p : String) (b : Bytes) : FS := (p, b) :: fs

/-- `Path::exists` on the modelled filesystem. -/
def pathExists (fs : FS) (p : String) : Bool := (fsLookup fs p).isSome

/-- An archive entry: a relative path together with its content bytes. -/
abbrev Entry := String × Bytes

/-- Modelled from the spec: a length-prefixed chunk of bytes, the unit of
the toy serialization standing in for the external tar codec. -/
def encChunk (b : Bytes) : List Nat := b.length :: b

/-- Modelled from the spec: a path serialized as a length-prefixed run of
character codes. -/
def encStr (s : String) : List Nat := s.data.length :: s.data.map Char.toNat

/-- Modelled from the spec: one archive entry, path then content. -/
def encEntry (e : Entry) : List Nat := encStr e.1 ++ encChunk e.2

/-- Modelled from the spec: the bytes of a gzip-compressed tar container
holding the given entries in order.  The leading two bytes play the role
of the gzip magic number; a stream not starting with them is rejected
before any entry is produced. -/
def gzTarEncode (es : List Entry) : Bytes :=
  31 :: 139 :: es.length :: (es.map encEntry).flatten

/-- Decode one length-prefixed chunk, returning it and the rest. -/
def decChunk : List Nat → Option (List Nat × List Nat)
  | [] => none
  | n :: rest => if n ≤ rest.length then some (rest.take n, rest.drop n) else none

/-- Decode one entry (path, then content), returning it and the rest. -/
def decEntry (l : List Nat) : Option (Entry × List Nat) :=
  match decChunk l with
  | none => none
  | some (cs, r1) =>
    match decChunk r1 with
    | none => none
    | some (b, r2) => some ((String.mk (cs.map Char.ofNat), b), r2)

/-- Modelled from the spec: streaming entry decoding.  Returns the entries
decoded before any failure together with a success flag; on a failure the
entries already produced are kept, matching the spec's statement that
files extracted before the failure point remain. -/
def readEntries : Nat → List Nat → List Entry × Bool
  | 0, _ => ([], true)
  | n + 1, l =>
    match decEntry l with
    | none => ([], false)
    | some (e, r) =>
      let p := readEntries n r
      (e :: p.1, p.2)

/-- Modelled from the spec: decode a whole container.  A stream that does
not begin with the magic bytes fails before producing any entry. -/
def unpackStream (b : Bytes) : List Entry × Bool :=
  match b with
  | 31 :: 139 :: n :: rest => readEntries n rest
  | _ => ([], false)

/-- The warning line printed for a missing compression input
(src/main.rs line 20). -/
def warnMsg (p : String) : String := "⚠️ Skipping missing file: " ++ p

/-- Result of the compress handler: entries written in order, warning
lines emitted in order, and the count printed in the success line. -/
structure CompressResult where
  entries : List Entry
  warnings : List String
  reported : Nat
  deriving DecidableEq

/-- The for-loop of `compress_files` (src/main.rs lines 15-22): each input
path is appended as an entry when it exists and otherwise skipped with a
warning. -/
def compressLoop (fs : FS) : List String → List Entry × List String
  | [] => ([], [])
  | file :: rest =>
    let p := compressLoop fs rest
    match fsLookup fs file with
    | some c => ((file, c) :: p.1, p.2)
    | none => (p.1, warnMsg file :: p.2)

/-- `compress_files` (src/main.rs lines 10-27): the entries and warnings of
the loop, and the success line's count, which is the length of the
requested input list. -/
def compress_files (fs : FS) (input_files : List String) : CompressResult :=
  let p := compressLoop fs input_files
  { entries := p.1, warnings := p.2, reported := input_files.length }

/-- Running `compress_files` against the filesystem: `File::create`
truncates the output first, the loop reads inputs from the truncated
state, and the finished gzip bytes land at the output path. -/
def compressRun (fs : FS) (input_files : List String) (output : String) :
    FS × CompressResult :=
  let fs0 := fsWrite fs output []
  let r := compress_files fs0 input_files
  (fsWrite fs0 output (gzTarEncode r.entries), r)

/-- Outcome of the decompress handler. -/
inductive DecompressOutcome where
  | extracted (entries : List Entry)
  | ioError
  | formatError
  deriving DecidableEq

/-- The destination of one extracted entry under the output directory. -/
def joinPath (dir p : String) : String := dir ++ "/" ++ p

/-- Write each extracted entry under the output directory, in order. -/
def unpackInto (fs : FS) (dir : String) (es : List Entry) : FS :=
  es.foldl (fun acc e => fsWrite acc (joinPath dir e.1) e.2) fs

/-- `decompress_files` (src/main.rs lines 29-37): open the input (an open
failure extracts nothing), then stream-unpack every decoded entry into the
output directory; a decoding failure aborts with an error but keeps the
entries already extracted. -/
def decompress_files (fs : FS) (input : String) (output_dir : String) :
    FS × DecompressOutcome :=
  match fsLookup fs input with
  | none => (fs, .ioError)
  | some b =>
    let p := unpackStream b
    let fs1 := unpackInto fs output_dir p.1
    if p.2 then (fs1, .extracted p.1) else (fs1, .formatError)

/-- The tar header built by the add handler (src/main.rs lines 49-53). -/
structure Header where
  path : String
  size : Nat
  mode : Nat
  mtime : Nat
  deriving DecidableEq

/-- Overwrite the bytes of `file` starting at `pos` with `data`, extending
the file when the write runs past its end. -/
def writeAt (file : Bytes) (pos : Nat) (data : Bytes) : Bytes :=
  file.take pos ++ data ++ file.drop (pos + data.length)

/-- The file cursor after `OpenOptions::new().read(true).write(true).open`:
the start of the file (position 0); the handler never seeks. -/
def addCursor : Nat := 0

/-- Outcome of the add handler. -/
inductive AddOutcome where
  | added (h : Header)
  | ioError
  deriving DecidableEq

/-- `add_file_to_tar_gz` (src/main.rs lines 38-57): open the archive for
read+write (no append, no truncation, cursor at `addCursor`), open the
file to add, build a header with the file's path, its byte length, mode
0o755 and mtime 0, and write a fresh single-entry gzip segment at the
cursor position. -/
def add_file_to_tar_gz (fs : FS) (tar_gz_path : String) (file_path : String) :
    FS × AddOutcome :=
  match fsLookup fs tar_gz_path with
  | none => (fs, .ioError)
  | some original =>
    match fsLookup fs file_path with
    | none => (fs, .ioError)
    | some content =>
      let header : Header :=
        { path := file_path, size := content.length, mode := 0o755, mtime := 0 }
      let seg := gzTarEncode [(file_path, content)]
      (fsWrite fs tar_gz_path (writeAt original addCursor seg), .added header)

/-- The parsed command line (src/main.rs lines 108-142): four boolean
flags, the input option carrying one or more values when present, and the
output option carrying one value when present.  clap accepts `-i` only
with at least one value, so an absent option is `none`. -/
structure Args where
  compress : Bool
  decompress : Bool
  add : Bool
  help : Bool
  input : Option (List String)
  output : Option String
  deriving DecidableEq

/-- The panic message of `Option::unwrap` on `None`. -/
def unwrapMsg : String := "called Option::unwrap on a None value"

/-- The diagnostic printed by the final else branch of `main`
(src/main.rs line 161). -/
def noOperationMsg : String := "❌ Please specify --compress or --decompress"

/-- What `main` decides to do after parsing (src/main.rs lines 143-162),
before any handler touches the filesystem. -/
inductive Dispatch where
  | showHelp
  | panic (msg : String)
  | runCompress (input_files : List String) (output : String)
  | runDecompress (input output : String)
  | runAdd (archive file : String)
  | noOp
  deriving DecidableEq

/-- The dispatch logic of `main` (src/main.rs lines 143-162): help first;
then `output` is unwrapped unconditionally (a missing output panics before
any operation flag is examined); then the first set flag among compress,
decompress, add picks the handler, the add handler receiving the input
value as the archive and the output value as the file to append; with no
flag set the missing-operation diagnostic branch is reached. -/
def main_dispatch (a : Args) : Dispatch :=
  if a.help then .showHelp
  else
    match a.output with
    | none => .panic unwrapMsg
    | some output =>
      if a.compress then
        match a.input with
        | none => .panic unwrapMsg
        | some input_files => .runCompress input_files output
      else if a.decompress then
        match a.input with
        | none => .panic unwrapMsg
        | some files => .runDecompress (files.headD "") output
      else if a.add then
        match a.input with
        | none => .panic unwrapMsg
        | some files => .runAdd (files.headD "") output
      else .noOp

/-- The observable end of one invocation. -/
inductive MainOutcome where
  | helpShown
  | panicked (msg : String)
  | noOperation
  | compressDone (r : CompressResult) (output : String)
  | decompressDone (entries : List Entry) (input : String) (output : String)
  | addDone (h : Header) (file : String) (archive : String)
  deriving DecidableEq

/-- One whole invocation of `main` over the modelled filesystem: dispatch,
then run the selected handler, a handler error becoming the corresponding
`expect` panic.  The help, panic and no-operation paths never touch the
filesystem. -/
def main_run (fs : FS) (a : Args) : FS × MainOutcome :=
  match main_dispatch a with
  | .showHelp => (fs, .helpShown)
  | .panic m => (fs, .panicked m)
  | .noOp => (fs, .noOperation)
  | .runCompress input_files output =>
    let p := compressRun fs input_files output
    (p.1, .compressDone p.2 output)
  | .runDecompress input output =>
    let p := decompress_files fs input output
    match p.2 with
    | .extracted es => (p.1, .decompressDone es input output)
    | _ => (p.1, .panicked "Decompression failed")
  | .runAdd archive file =>
    let p := add_file_to_tar_gz fs archive file
    match p.2 with
    | .added h => (p.1, .addDone h file archive)
    | _ => (p.1, .panicked "Adding file failed")

/-- The usage text printed by `display_help` (src/main.rs lines 58-106). -/
def helpText : String :=
  "\nNAME\n    tart - Compress and decompress files using Gzip and Tar\n\nSYNOPSIS\n    tart [OPTIONS] -i <INPUT> -o <OUTPUT>\n\nDESCRIPTION\n    Tart is a command-line utility to compress multiple files into a \n    single .tar.gz archive, extract .tar.gz archives, or append a file to an \n    existing .tar.gz archive.\n\nOPTIONS\n    -c, --compress\n        Compress multiple files into a single .tar.gz archive.\n    \n    -d, --decompress\n        Extract files from a .tar.gz archive.\n    \n    -a, --add\n        Add a file to an existing .tar.gz archive.\n    \n    -i, --input <INPUT>\n        Input file(s) for compression, or archive file for decompression.\n        Accepts multiple files when compressing.\n\n    -o, --output <OUTPUT>\n        Output archive file (.tar.gz) or extraction directory.\n\n    -h, --help\n        Display this help message.\n\nEXAMPLES\n    Compress files into an archive:\n        tart -c -i file1.txt file2.txt -o archive.tar.gz\n\n    Decompress an archive:\n        tart -d -i archive.tar.gz -o extracted_dir/\n\n    Add a file to an existing archive:\n        tart -a -i newfile.txt -o archive.tar.gz"

/-- Process exit status: a Rust panic aborts with status 101; every other
path returns from `main` normally, giving status 0. -/
def outcomeExitCode : MainOutcome → Nat
  | .panicked _ => 101
  | _ => 0

/-- Lines written to the diagnostic stream. -/
def outcomeStderr : MainOutcome → List String
  | .panicked m => [m]
  | .noOperation => [noOperationMsg]
  | .compressDone r _ => r.warnings
  | _ => []

/-- Lines written to standard output. -/
def outcomeStdout : MainOutcome → List String
  | .helpShown => [helpText]
  | .compressDone r out =>
    ["✅ Compressed " ++ toString r.reported ++ " files into " ++ out]
  | .decompressDone _ inp out =>
    ["✅ Extracted contents of " ++ inp ++ " to " ++ out]
  | .addDone _h file arch => ["✅ Added " ++ file ++ " to " ++ arch]
  | _ => []

theorem fsLookup_fsWrite (fs : FS) (q p : String) (b : Bytes) :
    fsLookup (fsWrite fs q b) p = if p = q then some b else fsLookup fs p := by
  by_cases h : p = q
  · simp [fsLookup, fsWrite, List.lookup, h]
  · simp [fsLookup, fsWrite, List.lookup, h, beq_false_of_ne h]

theorem decChunk_encChunk (b r : List Nat) : decChunk (encChunk b ++ r) = some (b, r) := by
  simp [decChunk, encChunk, List.take_left, List.drop_left]

theorem encStr_eq (s : String) : encStr s = encChunk (s.data.map Char.toNat) := by
  simp [encStr, encChunk]

theorem decEntry_encEntry (e : Entry) (r : List Nat) :
    decEntry (encEntry e ++ r) = some (e, r) := by
  obtain ⟨s, b⟩ := e
  have h : encEntry (s, b) ++ r = encChunk (s.data.map Char.toNat) ++ (encChunk b ++ r) := by
    simp [encEntry, encStr_eq]
  simp [decEntry, h, decChunk_encChunk, List.map_map, Function.comp_def, Char.ofNat_toNat]

theorem readEntries_encode (es : List Entry) (r : List Nat) :
    readEntries es.length ((es.map encEntry).flatten ++ r) = (es, true) := by
  induction es with
  | nil => simp [readEntries]
  | cons e es ih =>
    simp [readEntries, List.append_assoc, decEntry_encEntry, ih]

theorem unpack_encode (es : List Entry) : unpackStream (gzTarEncode es) = (es, true) := by
  have h := readEntries_encode es []
  simpa [unpackStream, gzTarEncode] using h

theorem compressLoop_eq (fs : FS) (l : List String) :
    compressLoop fs l =
      (l.filterMap (fun p => (fsLookup fs p).map (fun c => (p, c))),
       (l.filter (fun p => (fsLookup fs p).isNone)).map warnMsg) := by
  induction l with
  | nil => rfl
  | cons q l ih =>
    cases h : fsLookup fs q <;>
      simp [compressLoop, h, ih, List.filterMap_cons, List.filter_cons]

theorem string_append_cancel {s t u : String} (h : s ++ t = s ++ u) : t = u := by
  apply String.ext
  have hd := congrArg String.data h
  simp only [String.data_append] at hd
  exact List.append_cancel_left hd

theorem joinPath_inj {dir p q : String} (h : joinPath dir p = joinPath dir q) : p = q := by
  unfold joinPath at h
  exact string_append_cancel h

theorem lookup_unpack_list (dir : String) (l : List Entry) (rest : FS) (p : String) (c : Bytes)
    (hmem : (p, c) ∈ l)
    (huniq : ∀ e ∈ l, e.1 = p → e.2 = c) :
    List.lookup (joinPath dir p) (l.map (fun e => (joinPath dir e.1, e.2)) ++ rest) = some c := by
  induction l with
  | nil => cases hmem
  | cons e l ih =>
    by_cases he : e.1 = p
    · have hc : e.2 = c := huniq e (by simp) he
      simp [List.lookup, he, hc]
    · have hne : (joinPath dir p == joinPath dir e.1) = false := by
        apply beq_false_of_ne
        exact fun hh => he (joinPath_inj hh).symm
      have hmem' : (p, c) ∈ l := by
        rcases List.mem_cons.mp hmem with h1 | h1
        · exact absurd (congrArg Prod.fst h1.symm) he
        · exact h1
      have huniq' : ∀ e ∈ l, e.1 = p → e.2 = c :=
        fun e' he' => huniq e' (List.mem_cons_of_mem _ he')
      simpa [List.lookup, hne] using ih hmem' huniq'

theorem unpackInto_eq (fs : FS) (dir : String) (es : List Entry) :
    unpackInto fs dir es = (es.reverse.map (fun e => (joinPath dir e.1, e.2))) ++ fs := by
  induction es generalizing fs with
  | nil => rfl
  | cons e es ih =>
    show unpackInto (fsWrite fs (joinPath dir e.1) e.2) dir es = _
    rw [ih]
    simp [fsWrite, List.reverse_cons, List.map_append, List.append_assoc]

theorem fsLookup_unpackInto (fs : FS) (dir : String) (es : List Entry) (p : String) (c : Bytes)
    (hmem : (p, c) ∈ es) (huniq : ∀ e ∈ es, e.1 = p → e.2 = c) :
    fsLookup (unpackInto fs dir es) (joinPath dir p) = some c := by
  rw [unpackInto_eq]
  exact lookup_unpack_list dir es.reverse fs p c (by simpa using hmem)
    (fun e he => huniq e (by simpa using he))

theorem noOp_dispatch (a : Args) (h : main_dispatch a = .noOp) :
    a.help = false ∧ a.compress = false ∧ a.decompress = false ∧ a.add = false ∧
      ∃ o, a.output = some o := by
  rcases a with ⟨c, d, ad, hp, inp, out⟩
  cases hp
  · cases out
    · simp [main_dispatch] at h
    · cases c
      · cases d
        · cases ad
          · exact ⟨rfl, rfl, rfl, rfl, _, rfl⟩
          · cases inp <;> simp [main_dispatch] at h
        · cases inp <;> simp [main_dispatch] at h
      · cases inp <;> simp [main_dispatch] at h
  · simp [main_dispatch] at h

theorem noOperation_dispatch (fs : FS) (a : Args) (h : (main_run fs a).2 = .noOperation) :
    main_dispatch a = .noOp := by
  cases hd : main_dispatch a
  case noOp => rfl
  case showHelp => simp [main_run, hd] at h
  case panic m => simp [main_run, hd] at h
  case runCompress i o => simp [main_run, hd] at h
  case runDecompress i o =>
    rcases hp : (decompress_files fs i o).2 <;> simp [main_run, hd, hp] at h
  case runAdd i o =>
    rcases hp : (add_file_to_tar_gz fs i o).2 <;> simp [main_run, hd, hp] at h

/-- C3: the compress success line reports the number of requested paths,
the length of the input list, not the number of entries actually written
after skipping missing files (on the example, 1 requested but 0 written). -/
theorem C3_reported_is_requested_count :
    (∀ (fs : FS) (input_files : List String),
      (compress_files fs input_files).reported = input_files.length) ∧
    (compress_files [] ["missing.txt"]).reported ≠
      (compress_files [] ["missing.txt"]).entries.length :=
  ⟨fun _ _ => rfl, by decide⟩

/-- C4 (code bug): with no operation flag and an output value supplied,
the missing-operation diagnostic is printed to the error stream but
`main` returns normally, so the process exits with status 0, not the
non-zero status the claim requires. -/
theorem C4_no_operation_exits_zero :
    main_run [] ⟨false, false, false, false, none, some "out.tar.gz"⟩ =
      ([], .noOperation) ∧
    outcomeStderr .noOperation = [noOperationMsg] ∧
    outcomeExitCode .noOperation = 0 :=
  ⟨rfl, rfl, rfl⟩

/-- C5 fails as stated: a compress invocation with the output option set
but the input option absent does not reach the Compress Handler; the
unwrap of the missing input panics, an abnormal non-zero exit. -/
theorem C5_counterexample :
    (main_run [] ⟨true, false, false, false, none, some "out.tar.gz"⟩).2 =
      .panicked unwrapMsg ∧
    outcomeExitCode (main_run [] ⟨true, false, false, false, none, some "out.tar.gz"⟩).2 ≠ 0 :=
  ⟨rfl, by decide⟩

/-- C5 amended: a compress invocation requires the input option as well:
with it present the Compress Handler runs on its values, with it absent
`main` panics on the unwrap before the handler is reached. -/
theorem C5_amended_input_required (fs : FS) (files : List String) (out : String) (d ad : Bool) :
    main_run fs ⟨true, d, ad, false, some files, some out⟩ =
      ((compressRun fs files out).1, .compressDone (compressRun fs files out).2 out) ∧
    main_run fs ⟨true, d, ad, false, none, some out⟩ = (fs, .panicked unwrapMsg) :=
  ⟨rfl, rfl⟩

/-- C6: compress archives exactly the existing paths, in input order, and
emits exactly one warning naming each missing path; on the spec's example
the archive holds a.txt and b.txt only, there is one warning naming
missing.txt, and the invocation exits successfully. -/
theorem C6_skip_missing_inputs :
    (∀ (fs : FS) (input_files : List String),
      (compress_files fs input_files).entries =
        input_files.filterMap (fun p => (fsLookup fs p).map (fun c => (p, c))) ∧
      (compress_files fs input_files).warnings =
        (input_files.filter (fun p => (fsLookup fs p).isNone)).map warnMsg) ∧
    (compress_files [("a.txt", [1]), ("b.txt", [2])]
        ["a.txt", "missing.txt", "b.txt"]).entries = [("a.txt", [1]), ("b.txt", [2])] ∧
    (compress_files [("a.txt", [1]), ("b.txt", [2])]
        ["a.txt", "missing.txt", "b.txt"]).warnings = [warnMsg "missing.txt"] ∧
    outcomeExitCode (main_run [("a.txt", [1]), ("b.txt", [2])]
        ⟨true, false, false, false, some ["a.txt", "missing.txt", "b.txt"],
          some "out.tar.gz"⟩).2 = 0 := by
  refine ⟨fun fs l => ?_, by decide, by decide, by decide⟩
  have h := compressLoop_eq fs l
  constructor <;> simp [compress_files, h]

/-- C7: an add invocation passes the input value as the existing archive
and the output value as the file to append, and the appended entry's
header carries that file's path, its byte length as size, permission mode
0o755 and modification time 0. -/
theorem C7_add_routing_and_header (fs : FS) (arch file : String)
    (original content : Bytes)
    (h1 : fsLookup fs arch = some original) (h2 : fsLookup fs file = some content) :
    main_dispatch ⟨false, false, true, false, some [arch], some file⟩ =
      .runAdd arch file ∧
    (main_run fs ⟨false, false, true, false, some [arch], some file⟩).2 =
      .addDone ⟨file, content.length, 0o755, 0⟩ file arch := by
  constructor
  · rfl
  · simp [main_run, main_dispatch, add_file_to_tar_gz, h1, h2]

/-- C7 witness: adding x.txt (2 bytes) to a.tgz yields exactly that
header. -/
theorem C7_witness :
    (main_run [("a.tgz", [1, 2, 3]), ("x.txt", [5, 6])]
        ⟨false, false, true, false, some ["a.tgz"], some "x.txt"⟩).2 =
      .addDone ⟨"x.txt", 2, 0o755, 0⟩ "x.txt" "a.tgz" :=
  (C7_add_routing_and_header [("a.tgz", [1, 2, 3]), ("x.txt", [5, 6])]
    "a.tgz" "x.txt" [1, 2, 3] [5, 6] rfl rfl).2

/-- C8: with the help flag set, whatever the other flags and options, the
run prints exactly the usage text, leaves the filesystem untouched, emits
nothing on the error stream, and exits with status 0. -/
theorem C8_help_pure (fs : FS) (a : Args) (h : a.help = true) :
    main_run fs a = (fs, .helpShown) ∧
    outcomeStdout (main_run fs a).2 = [helpText] ∧
    outcomeStderr (main_run fs a).2 = [] ∧
    outcomeExitCode (main_run fs a).2 = 0 := by
  have hd : main_dispatch a = .showHelp := by simp [main_dispatch, h]
  refine ⟨?_, ?_, ?_, ?_⟩ <;>
    simp [main_run, hd, outcomeStdout, outcomeStderr, outcomeExitCode]

/-- C8 witness: help set together with every other flag and both options
still only shows the usage text and leaves the filesystem alone. -/
theorem C8_witness :
    main_run [("f.txt", [1])] ⟨true, true, true, true, some ["x"], some "y"⟩ =
      ([("f.txt", [1])], .helpShown) :=
  (C8_help_pure [("f.txt", [1])] ⟨true, true, true, true, some ["x"], some "y"⟩ rfl).1

/-- C10: with help unset and no output value, `main` panics on the output
unwrap whatever the operation flags are; and the no-operation diagnostic
is reachable only when an output value was supplied, so a bare invocation
panics instead of printing it. -/
theorem C10_output_unwrap_panics (a : Args) (fs : FS)
    (h1 : a.help = false) (h2 : a.output = none) :
    main_run fs a = (fs, .panicked unwrapMsg) ∧
    (∀ (a2 : Args) (fs2 : FS), (main_run fs2 a2).2 = .noOperation →
      ∃ o, a2.output = some o) := by
  constructor
  · have hd : main_dispatch a = .panic unwrapMsg := by simp [main_dispatch, h1, h2]
    simp [main_run, hd]
  · intro a2 fs2 h
    exact (noOp_dispatch a2 (noOperation_dispatch fs2 a2 h)).2.2.2.2

/-- C10 witness: the invocation with no flags and no options at all
panics on the output unwrap. -/
theorem C10_witness :
    main_run [] ⟨false, false, false, false, none, none⟩ = ([], .panicked unwrapMsg) :=
  (C10_output_unwrap_panics ⟨false, false, false, false, none, none⟩ [] rfl rfl).1

/-- C2 (code bug): the add handler opens the archive read+write without
append mode and never seeks, so the fresh gzip segment is written from
position 0, overwriting the start of the original archive; the resulting
file is the new segment followed by the tail of the original, not the
original content followed by the new segment. -/
theorem C2_add_overwrites_archive_head :
    (add_file_to_tar_gz [("a.tar.gz", List.replicate 10 7), ("f", [9])] "a.tar.gz" "f").1 =
      fsWrite [("a.tar.gz", List.replicate 10 7), ("f", [9])] "a.tar.gz"
        (gzTarEncode [("f", [9])] ++ List.replicate 3 7) ∧
    fsLookup (add_file_to_tar_gz [("a.tar.gz", List.replicate 10 7), ("f", [9])]
        "a.tar.gz" "f").1 "a.tar.gz" ≠
      some (List.replicate 10 7 ++ gzTarEncode [("f", [9])]) :=
  ⟨by decide, by decide⟩

/-- C9 fails as stated: this input is not a valid archive (its stream
breaks after one entry), yet the run, while reporting a format error,
has already written the first entry under the destination directory. -/
theorem C9_counterexample :
    (decompress_files [("bad.tar.gz", [31, 139, 2, 5, 97, 46, 116, 120, 116, 1, 5, 99])]
        "bad.tar.gz" "dest").2 = .formatError ∧
    fsLookup (decompress_files
        [("bad.tar.gz", [31, 139, 2, 5, 97, 46, 116, 120, 116, 1, 5, 99])]
        "bad.tar.gz" "dest").1 (joinPath "dest" "a.txt") = some [5] :=
  ⟨by decide, by decide⟩

/-- C9 amended: when the input does not exist, or its decoding fails
before any entry is produced (for instance the gzip magic is absent), the
operation reports an error and creates no extracted output; a stream that
fails after some entries instead leaves those entries extracted. -/
theorem C9_amended_no_output_on_early_failure (fs : FS) (input dir : String)
    (h : fsLookup fs input = none ∨
      ∃ b, fsLookup fs input = some b ∧ unpackStream b = ([], false)) :
    (decompress_files fs input dir).1 = fs ∧
    ((decompress_files fs input dir).2 = .ioError ∨
      (decompress_files fs input dir).2 = .formatError) := by
  rcases h with h | ⟨b, hb, hu⟩
  · simp [decompress_files, h]
  · simp [decompress_files, hb, hu, unpackInto]

/-- C9 witness: decompressing a missing input on the empty filesystem
fails and changes nothing. -/
theorem C9_amended_witness :
    (decompress_files [] "nope.tar.gz" "dest").1 = [] ∧
    ((decompress_files [] "nope.tar.gz" "dest").2 = .ioError ∨
      (decompress_files [] "nope.tar.gz" "dest").2 = .formatError) :=
  C9_amended_no_output_on_early_failure [] "nope.tar.gz" "dest" (Or.inl rfl)

/-- C1: compressing a non-empty list of paths that all name existing
files and decompressing the produced archive into a destination directory
round-trips: extraction succeeds on every written entry, and every input
path's byte content reappears unchanged at its relative path under the
destination. -/
theorem C1_compress_decompress_roundtrip (fs : FS) (inputs : List String)
    (output dest : String)
    (_hne : inputs ≠ [])
    (hex : ∀ p ∈ inputs, pathExists fs p = true)
    (hout : output ∉ inputs) :
    (decompress_files (compressRun fs inputs output).1 output dest).2 =
      .extracted (compressRun fs inputs output).2.entries ∧
    ∀ p ∈ inputs,
      fsLookup (decompress_files (compressRun fs inputs output).1 output dest).1
        (joinPath dest p) = fsLookup fs p := by
  have hfs0 : ∀ p ∈ inputs, fsLookup (fsWrite fs output []) p = fsLookup fs p := by
    intro p hp
    rw [fsLookup_fsWrite, if_neg]
    intro h
    exact hout (h ▸ hp)
  have hent : (compress_files (fsWrite fs output []) inputs).entries =
      inputs.filterMap
        (fun p => (fsLookup (fsWrite fs output []) p).map (fun c => (p, c))) := by
    simp [compress_files, compressLoop_eq]
  have hfs1 : (compressRun fs inputs output).1 =
      fsWrite (fsWrite fs output []) output
        (gzTarEncode (compress_files (fsWrite fs output []) inputs).entries) := rfl
  have hlook : fsLookup (compressRun fs inputs output).1 output =
      some (gzTarEncode (compress_files (fsWrite fs output []) inputs).entries) := by
    rw [hfs1, fsLookup_fsWrite, if_pos rfl]
  have hdec : decompress_files (compressRun fs inputs output).1 output dest =
      (unpackInto (compressRun fs inputs output).1 dest
        (compress_files (fsWrite fs output []) inputs).entries,
       .extracted (compress_files (fsWrite fs output []) inputs).entries) := by
    simp [decompress_files, hlook, unpack_encode]
  constructor
  · rw [hdec]
    rfl
  · intro p hp
    obtain ⟨c, hc⟩ : ∃ c, fsLookup fs p = some c := by
      have h := hex p hp
      simpa [pathExists, Option.isSome_iff_exists] using h
    have hmem : (p, c) ∈ (compress_files (fsWrite fs output []) inputs).entries := by
      rw [hent]
      refine List.mem_filterMap.mpr ⟨p, hp, ?_⟩
      rw [hfs0 p hp, hc]
      rfl
    have huniq : ∀ e ∈ (compress_files (fsWrite fs output []) inputs).entries,
        e.1 = p → e.2 = c := by
      rw [hent]
      intro e he hep
      obtain ⟨q, hq, heq⟩ := List.mem_filterMap.mp he
      cases hql : fsLookup (fsWrite fs output []) q with
      | none => rw [hql] at heq; cases heq
      | some d =>
        rw [hql] at heq
        injection heq with heq2
        have hqp : q = p := by rw [← heq2] at hep; exact hep
        subst hqp
        rw [hfs0 q hq, hc] at hql
        injection hql with hdc
        rw [← heq2]
        exact hdc.symm
    rw [hdec, hc]
    exact fsLookup_unpackInto _ dest _ p c hmem huniq

/-- C1 witness: two concrete files round-trip through one archive. -/
theorem C1_witness :
    (decompress_files
        (compressRun [("a.txt", [1, 2]), ("b.txt", [3])] ["a.txt", "b.txt"] "out.tar.gz").1
        "out.tar.gz" "dest").2 =
      .extracted (compressRun [("a.txt", [1, 2]), ("b.txt", [3])]
        ["a.txt", "b.txt"] "out.tar.gz").2.entries ∧
    fsLookup (decompress_files
        (compressRun [("a.txt", [1, 2]), ("b.txt", [3])] ["a.txt", "b.txt"] "out.tar.gz").1
        "out.tar.gz" "dest").1 (joinPath "dest" "a.txt") =
      fsLookup [("a.txt", [1, 2]), ("b.txt", [3])] "a.txt" ∧
    fsLookup (decompress_files
        (compressRun [("a.txt", [1, 2]), ("b.txt", [3])] ["a.txt", "b.txt"] "out.tar.gz").1
        "out.tar.gz" "dest").1 (joinPath "dest" "b.txt") =
      fsLookup [("a.txt", [1, 2]), ("b.txt", [3])] "b.txt" :=
  ⟨(C1_compress_decompress_roundtrip [("a.txt", [1, 2]), ("b.txt", [3])] ["a.txt", "b.txt"]
      "out.tar.gz" "dest" (by decide) (by decide) (by decide)).1,
   (C1_compress_decompress_roundtrip [("a.txt", [1, 2]), ("b.txt", [3])] ["a.txt", "b.txt"]
      "out.tar.gz" "dest" (by decide) (by decide) (by decide)).2 "a.txt" (by simp),
   (C1_compress_decompress_roundtrip [("a.txt", [1, 2]), ("b.txt", [3])] ["a.txt", "b.txt"]
      "out.tar.gz" "dest" (by decide) (by decide) (by decide)).2 "b.txt" (by simp)⟩

end Tart
